import Mathlib

/-!
Verification development for a small movie-recommender web application.

The application (Python, FastAPI) searches a movie-metadata catalog (TMDB),
filters and ranks the results, annotates them against an animal-safety topic
API (DTDD), and tracks watched movies. We shallowly embed its core logic:

* `app/movies/tmdb.py`   — `discover_movies_multi` (paged discovery + dedupe);
* `app/movies/dtdd.py`   — `dog_dies_from_media`, `pick_best_item`,
  `dtdd_search` / `dtdd_search_imdb` / `dtdd_media`, `is_animal_safe_v1`;
* `app/movies/ranking.py` — `rank_movies` (composite score, stable sort);
* `app/main.py`          — the `/search` pipeline (fallback ladder, bounded
  safety annotation, actor exclusion) and the watched-store mutations.

Python dynamic values that matter (dict `id` fields, `isYes` flags, vote
sums) are embedded as `PyVal`; floats are embedded as rationals and the one
transcendental operation (`math.log10`) is kept as an abstract function
parameter.  Network calls appear as oracle functions; each embedded
network-using operation additionally returns the list of calls it issued.
-/

namespace MovieRec

/-- A Python/JSON scalar value as it occurs in the fields this code inspects:
absent/`None`, an `int`, a `bool`, or a `str`. -/
inductive PyVal where
  | vNone : PyVal
  | vInt (n : Int) : PyVal
  | vBool (b : Bool) : PyVal
  | vStr (s : String) : PyVal
deriving DecidableEq, Repr

/-- Python truthiness (`if x:`) for the values of `PyVal`. -/
def PyVal.truthy : PyVal → Bool
  | .vNone => false
  | .vInt n => n != 0
  | .vBool b => b
  | .vStr s => s != ""

/-- Python `isinstance(x, int)` together with the integer value it denotes.
In Python, `bool` is a subclass of `int`, so booleans count as integers
(`True` ≡ `1`, `False` ≡ `0`). Returns `none` for non-integers. -/
def PyVal.intInstance : PyVal → Option Int
  | .vInt n => some n
  | .vBool b => some (if b then 1 else 0)
  | _ => none

/-- Python `==` between the embedded scalar values (numeric cross-equality
between `int` and `bool`, structural equality otherwise). -/
def PyVal.pyEq : PyVal → PyVal → Bool
  | .vInt a, .vInt b => a == b
  | .vInt a, .vBool b => a == (if b then 1 else 0)
  | .vBool a, .vInt b => (if a then (1 : Int) else 0) == b
  | .vBool a, .vBool b => a == b
  | .vStr a, .vStr b => a == b
  | .vNone, .vNone => true
  | _, _ => false

/-- Python `int(x)` coercion on a scalar; `none` models a raised
`ValueError`/`TypeError`. -/
def PyVal.toIntCoe : PyVal → Option Int
  | .vInt n => some n
  | .vBool b => some (if b then 1 else 0)
  | .vStr s => s.toInt?
  | .vNone => none

/-- `pat.isPrefixOf l || ...` scan: does `pat` occur as a contiguous
subsequence of `l`?  Embeds Python's `pat in s` on strings (via `toList`). -/
def hasSubArr (pat : List Char) : List Char → Bool
  | [] => pat.isEmpty
  | c :: rest => pat.isPrefixOf (c :: rest) || hasSubArr pat rest

/-- Python `pat in s` for strings. -/
def pyInStr (pat s : String) : Bool := hasSubArr pat.toList s.toList

/-- A TMDB movie record, restricted to the fields the embedded code reads or
writes.  `id` is kept as a raw `PyVal` because the code checks its type and
truthiness.  The two pipeline annotations (`is_watched`, `dtdd_dog_safe`)
start absent, as in the fresh upstream JSON. -/
structure Movie where
  id : PyVal := .vNone
  title : Option String := none
  release_date : Option String := none
  vote_average : Option ℚ := none
  vote_count : Option ℚ := none
  popularity : Option ℚ := none
  dtdd_dog_safe : Option String := none
  is_watched : Option Bool := none
deriving DecidableEq, Repr

/-! ## `app/movies/tmdb.py` — `discover_movies_multi`

`discover_movies` (one page) is a plain HTTP request; the multi-page merge is
what carries logic.  The page fetch is an oracle `fetch : Nat → List Movie`
standing for `discover_movies(...)["results"] or []` at a given page number.
The embedded function also returns the list of page numbers it fetched. -/

/-- `pages = max(1, min(int(pages), 20))` from `discover_movies_multi`. -/
def clampPages (pages : Int) : Nat := (max 1 (min pages 20)).toNat

/-- The inner per-page loop of `discover_movies_multi`: skip items whose `id`
is not an `int` instance, skip already-seen ids, append the rest. -/
def addPage (seen : Finset Int) (acc : List Movie) : List Movie → Finset Int × List Movie
  | [] => (seen, acc)
  | m :: rest =>
    match m.id.intInstance with
    | none => addPage seen acc rest
    | some mid =>
      if mid ∈ seen then addPage seen acc rest
      else addPage (insert mid seen) (acc ++ [m]) rest

/-- The page loop of `discover_movies_multi`: fetch pages `page, page+1, ...`
while fuel lasts, stopping (after the fetch) on an empty page.  Returns the
accumulated de-duplicated records and the list of pages fetched. -/
def discoverGo (fetch : Nat → List Movie) : Nat → Nat → Finset Int → List Movie →
    List Movie × List Nat
  | _, 0, _, acc => (acc, [])
  | page, fuel + 1, seen, acc =>
    let results := fetch page
    if results.isEmpty then (acc, [page])
    else
      let sa := addPage seen acc results
      let r := discoverGo fetch (page + 1) fuel sa.1 sa.2
      (r.1, page :: r.2)

/-- `discover_movies_multi(api_key, ..., pages=pages, ...)` with the single-page
call abstracted as `fetch`.  Second component: the pages fetched, in order. -/
def discover_movies_multi (fetch : Nat → List Movie) (pages : Int) :
    List Movie × List Nat :=
  discoverGo fetch 1 (clampPages pages) ∅ []

/-- First-seen de-duplication of a stream of records by integer id, skipping
records without an `int`-instance id — the order/dedup contract that
`discover_movies_multi` is claimed to satisfy over its fetched stream. -/
def dedupeFirst (seen : Finset Int) : List Movie → List Movie
  | [] => []
  | m :: rest =>
    match m.id.intInstance with
    | none => dedupeFirst seen rest
    | some mid =>
      if mid ∈ seen then dedupeFirst seen rest
      else m :: dedupeFirst (insert mid seen) rest

/-- The set of ids seen after scanning a stream (companion to `dedupeFirst`). -/
def seenAfter (seen : Finset Int) : List Movie → Finset Int
  | [] => seen
  | m :: rest =>
    match m.id.intInstance with
    | none => seenAfter seen rest
    | some mid => seenAfter (insert mid seen) rest

/-! ## `app/movies/dtdd.py` — the animal-safety annotator -/

/-- The `topic` sub-object of a DTDD topic statistics entry. -/
structure Topic where
  legacyId : PyVal := .vNone
  doesName : Option String := none
  name : Option String := none
deriving DecidableEq, Repr

/-- One entry of a DTDD media payload's `topicItemStats` list. -/
structure TopicStat where
  topic : Option Topic := none
  isYes : PyVal := .vNone
  yesSum : PyVal := .vNone
  noSum : PyVal := .vNone
deriving DecidableEq, Repr

/-- A DTDD `/media/{id}` payload, restricted to the consumed field. -/
structure MediaPayload where
  topicItemStats : List TopicStat := []
deriving DecidableEq, Repr

/-- One item of a DTDD `/dddsearch` result list. -/
structure DtddItem where
  itemId : PyVal := .vNone
  tmdbId : PyVal := .vNone
  releaseYear : PyVal := .vNone
deriving DecidableEq, Repr

/-- A DTDD `/dddsearch` payload, restricted to the consumed field. -/
structure SearchPayload where
  items : List DtddItem := []
deriving DecidableEq, Repr

/-- The `is_dog_dies_topic` condition inside `dog_dies_from_media`:
`legacy_id == 25`, or a substring/equality match on the normalized topic
display names. -/
def isDogDiesTopic (e : TopicStat) : Bool :=
  let t := e.topic.getD {}
  let does_name := (t.doesName.getD "").trim.toLower
  let topic_name := (t.name.getD "").trim.toLower
  t.legacyId.pyEq (.vInt 25)
    || pyInStr "does the dog die" does_name
    || topic_name == "a dog dies"
    || pyInStr "dog die" topic_name

/-- The verdict block of `dog_dies_from_media` for a matched entry:
prefer an explicit `isYes` (`bool`, then `int` coerced with `bool(...)`),
otherwise infer from `yesSum`/`noSum` when both are `int` instances
(both zero ⇒ unknown, else `yes_sum > no_sum`), otherwise unknown. -/
def entryVerdict (e : TopicStat) : Option Bool :=
  match e.isYes with
  | .vBool b => some b
  | .vInt n => some (n != 0)
  | _ =>
    match e.yesSum.intInstance, e.noSum.intInstance with
    | some y, some n => if y = 0 && n = 0 then none else some (decide (n < y))
    | _, _ => none

/-- The scan loop of `dog_dies_from_media`: first entry matching the
dog-dies topic wins. -/
def dogDiesScan : List TopicStat → Option Bool
  | [] => none
  | e :: rest => if isDogDiesTopic e then entryVerdict e else dogDiesScan rest

/-- `dog_dies_from_media(media_payload)`: `none` for a falsy payload,
otherwise scan `topicItemStats`. -/
def dog_dies_from_media : Option MediaPayload → Option Bool
  | none => none
  | some payload => dogDiesScan payload.topicItemStats

/-- The SAFE / UNSAFE / UNKNOWN classification statuses. -/
inductive Status where
  | safe
  | unsafe_
  | unknown
deriving DecidableEq, Repr

/-- `main.py`'s mapping of an `is_animal_safe_v1` result to a status:
`True` ⇒ safe, `False` ⇒ unsafe, `None` ⇒ unknown. -/
def statusOfSafe : Option Bool → Status
  | some true => .safe
  | some false => .unsafe_
  | none => .unknown

/-- The status string written into `m["dtdd_dog_safe"]` by `main.py`. -/
def statusStr : Option Bool → String
  | some true => "safe"
  | some false => "unsafe"
  | none => "unknown"

/-- Status of the verdict of `dog_dies_from_media` on a single matched entry,
through `is_animal_safe_v1`'s final mapping (`safe = (dog_dies is False)`)
and `main.py`'s status mapping. -/
def entryStatus (e : TopicStat) : Status :=
  statusOfSafe ((entryVerdict e).map (fun dies => !dies))

/-- `get_release_year(tmdb_movie)`: first four characters of `release_date`
when they are digits. -/
def get_release_year (m : Movie) : Option Int :=
  let rd := m.release_date.getD ""
  if 4 ≤ rd.length && (rd.take 4).toList.all Char.isDigit then
    some (((rd.take 4).toNat?).getD 0 : Int)
  else none

/-- `int(it.get("releaseYear") or 0)` under `pick_best_item`'s
`try/except: pass`: `none` models a raised conversion error (entry skipped). -/
def yearCoerce : PyVal → Option Int
  | .vNone => some 0
  | .vInt n => some n
  | .vBool b => some (if b then 1 else 0)
  | .vStr s => if s = "" then some 0 else s.toInt?

/-- `pick_best_item(items, tmdb_id, year)`: exact `tmdbId` match, then
release-year match, then the first item; `None` on an empty list. -/
def pick_best_item (items : List DtddItem) (tmdb_id : PyVal) (year : Option Int) :
    Option DtddItem :=
  if items.isEmpty then none
  else
    match (if tmdb_id ≠ .vNone then items.find? (fun it => it.tmdbId.pyEq tmdb_id)
           else none) with
    | some it => some it
    | none =>
      match (match year with
             | some y => items.find? (fun it => yearCoerce it.releaseYear == some y)
             | none => none) with
      | some it => some it
      | none => items.head?

/-- The oracles standing for the DTDD HTTP layer and its two process-lifetime
caches.  A cache oracle returns `some payload` exactly when the cache holds a
fresh (age < TTL) entry for the key; a net oracle is the HTTP round trip,
`Except.error` standing for a raised `requests` error. -/
structure DtddOracles where
  searchCache : String → Option SearchPayload
  searchNet : String → Except Unit SearchPayload
  mediaCache : Int → Option MediaPayload
  mediaNet : Int → Except Unit MediaPayload

/-- `dtdd_search(api_key, query)`: short-circuit on a missing key or empty
normalized query, then cache lookup, then the network.  Also returns the
list of network calls issued. -/
def dtdd_search (api_key : String) (o : DtddOracles) (query : String) :
    Except Unit (Option SearchPayload × List String) :=
  if api_key = "" then .ok (none, [])
  else
    let q := query.trim.toLower
    if q = "" then .ok (none, [])
    else
      match o.searchCache q with
      | some payload => .ok (some payload, [])
      | none =>
        match o.searchNet q with
        | .error e => .error e
        | .ok payload => .ok (some payload, ["dddsearch?q=" ++ q])

/-- `dtdd_search_imdb(api_key, imdb_id)`, analogous to `dtdd_search` with the
`imdb:<id>` cache key. -/
def dtdd_search_imdb (api_key : String) (o : DtddOracles) (imdb_id : String) :
    Except Unit (Option SearchPayload × List String) :=
  if api_key = "" then .ok (none, [])
  else
    let i := imdb_id.trim
    if i = "" then .ok (none, [])
    else
      match o.searchCache ("imdb:" ++ i.toLower) with
      | some payload => .ok (some payload, [])
      | none =>
        match o.searchNet ("imdb:" ++ i.toLower) with
        | .error e => .error e
        | .ok payload => .ok (some payload, ["dddsearch?imdb=" ++ i])

/-- `dtdd_media(api_key, item_id)`: short-circuit on a missing key, then
cache, then the network. -/
def dtdd_media (api_key : String) (o : DtddOracles) (item_id : Int) :
    Except Unit (Option MediaPayload × List String) :=
  if api_key = "" then .ok (none, [])
  else
    match o.mediaCache item_id with
    | some payload => .ok (some payload, [])
    | none =>
      match o.mediaNet item_id with
      | .error e => .error e
      | .ok payload => .ok (some payload, ["media/" ++ toString item_id])

/-- `is_animal_safe_v1(api_key, tmdb_movie, imdb_id)`: search (by IMDb id when
truthy, else by title), best-item selection, media fetch, and the final
`dog_dies` mapping; `Except.error` models an uncaught upstream exception.
Second component: the safety-API network calls issued. -/
def is_animal_safe_v1 (api_key : String) (o : DtddOracles) (tmdb_movie : Movie)
    (imdb_id : Option String) : Except Unit (Option Bool × List String) :=
  let title := (tmdb_movie.title.getD "").trim
  if title = "" then .ok (none, [])
  else
    let searchRes :=
      match imdb_id with
      | some s => if s ≠ "" then dtdd_search_imdb api_key o s
                  else dtdd_search api_key o title
      | none => dtdd_search api_key o title
    match searchRes with
    | .error e => .error e
    | .ok (none, calls) => .ok (none, calls)
    | .ok (some payload, calls) =>
      match pick_best_item payload.items tmdb_movie.id (get_release_year tmdb_movie) with
      | none => .ok (none, calls)
      | some best =>
        if !best.itemId.truthy then .ok (none, calls)
        else
          match best.itemId.toIntCoe with
          | none => .error ()
          | some iid =>
            match dtdd_media api_key o iid with
            | .error e => .error e
            | .ok (mp, calls2) =>
              match dog_dies_from_media mp with
              | none => .ok (none, calls ++ calls2)
              | some dies => .ok (some (dies == false), calls ++ calls2)

/-! ## `app/movies/ranking.py` — `rank_movies`

Floats are embedded as rationals; `math.log10` is kept abstract as a
parameter `log10 : ℚ → ℚ`, and `datetime.now().year` as `current_year`. -/

/-- `float(m.get(k) or 0)` on an optional numeric field. -/
def floatOrZero : Option ℚ → ℚ
  | none => 0
  | some x => x

/-- The `year` computed inside `score`: `0` when `release_date` is falsy or
`int(release_date[:4])` fails. -/
def movieYear (m : Movie) : Int :=
  match m.release_date with
  | none => 0
  | some rd => if rd = "" then 0 else ((rd.take 4).toInt?).getD 0

/-- The `recency_boost` term: `max(0.0, year - (current_year - 15)) / 15.0`. -/
def recencyBoost (current_year : Int) (m : Movie) : ℚ :=
  max 0 ((movieYear m : ℚ) - ((current_year : ℚ) - 15)) / 15

/-- The composite `score(m)` closure of `rank_movies`. -/
def scoreOf (log10 : ℚ → ℚ) (current_year : Int) (m : Movie) : ℚ :=
  0.55 * floatOrZero m.vote_average
    + 0.30 * log10 (floatOrZero m.vote_count + 1)
    + 0.12 * log10 (floatOrZero m.popularity + 1)
    + 0.03 * recencyBoost current_year m

/-- `sorted(movies, key=score, reverse=True)`: the stable descending sort by
`score` (Python's `sorted` is stable and `reverse=True` preserves the input
order of equal keys). -/
def rank_movies (log10 : ℚ → ℚ) (current_year : Int) (movies : List Movie) :
    List Movie :=
  List.insertionSort
    (fun a b => scoreOf log10 current_year b ≤ scoreOf log10 current_year a) movies

/-! ## `app/main.py` — watched store and the `/search` pipeline -/

/-- A `watched_movies` row (the surrogate primary key is owned by the
database and plays no role in the embedded logic, so it is omitted). -/
structure WatchedRow where
  user_id : Int
  tmdb_id : Int
  title : String
deriving DecidableEq, Repr

/-- `POST /watched` (`mark_watched`): check-before-insert for the fixed MVP
user id 1. -/
def mark_watched (db : List WatchedRow) (tmdb_id : Int) (title : String) :
    List WatchedRow :=
  if db.any (fun e => e.user_id == 1 && e.tmdb_id == tmdb_id) then db
  else db ++ [⟨1, tmdb_id, title⟩]

/-- `POST /watched/remove` (`remove_watched`): delete all rows of user 1 with
the given movie id. -/
def remove_watched (db : List WatchedRow) (tmdb_id : Int) : List WatchedRow :=
  db.filter (fun e => !(e.user_id == 1 && e.tmdb_id == tmdb_id))

/-- Python `m.get("id") in watched_ids` against the snapshot set of watched
integer ids (`==` between a non-`int` id and an `int` is always false). -/
def pyIdMem (watched : Finset Int) (m : Movie) : Bool :=
  match m.id.intInstance with
  | some i => decide (i ∈ watched)
  | none => false

/-- One attempt of the fallback ladder: `(min_vote, min_vote_count, note)`. -/
structure Attempt where
  min_vote : Option ℚ
  min_vote_count : Int
  note : Option String
deriving DecidableEq, Repr

/-- `MIN_RESULTS_TARGET` from the search endpoint. -/
def MIN_RESULTS_TARGET : Nat := 20

/-- The attempts list built by the search endpoint: three base attempts,
plus two rating-fallback attempts when `min_vote >= 8.5`. -/
def buildAttempts (min_vote : Option ℚ) : List Attempt :=
  [⟨min_vote, 200, none⟩,
   ⟨min_vote, 100, some "Too few results — lowered minimum review count to 100."⟩,
   ⟨min_vote, 50, some "Too few results — lowered minimum review count to 50."⟩]
  ++ (match min_vote with
      | some v =>
        if 8.5 ≤ v then
          [⟨some 8.0, 100, some "Too few results at 8.5+ — showing 8.0+ with at least 100 reviews."⟩,
           ⟨some 7.5, 100, some "Still too few — showing 7.5+ with at least 100 reviews."⟩]
        else []
      | none => [])

/-- The page budget: 10 pages when `min_vote >= 8.0`, else 5. -/
def pagesFor (min_vote : Option ℚ) : Nat :=
  match min_vote with
  | some v => if 8.0 ≤ v then 10 else 5
  | none => 5

/-- The fallback-ladder loop of the search endpoint.  `disc a` stands for
`discover_movies_multi(...)` at attempt `a`'s `min_vote`/`min_vote_count`
(the remaining filters and the page budget are fixed per request).  Each
attempt's result is filtered against the watched set, and the loop stops as
soon as `MIN_RESULTS_TARGET` is reached or attempts run out.  Returns
`(movies, results_note, attempts executed in order)`. -/
def runLadder (disc : Attempt → List Movie) (watched : Finset Int) :
    List Attempt → List Movie × Option String × List Attempt
  | [] => ([], none, [])
  | a :: rest =>
    let ms := (disc a).filter (fun m => !pyIdMem watched m)
    if MIN_RESULTS_TARGET ≤ ms.length then (ms, a.note, [a])
    else if rest.isEmpty then (ms, a.note, [a])
    else
      let r := runLadder disc watched rest
      (r.1, r.2.1, a :: r.2.2)

/-- The post-watched-filter result count of one ladder attempt. -/
def ladderCount (disc : Attempt → List Movie) (watched : Finset Int)
    (a : Attempt) : Nat :=
  ((disc a).filter (fun m => !pyIdMem watched m)).length

/-- `MAX_DTDD_CHECK` from the search endpoint. -/
def MAX_DTDD_CHECK : Nat := 25

/-- The per-movie mutation of the annotation loop: set `is_watched`, then set
`dtdd_dog_safe` from the safety result.  `safe m` stands for the evaluation
`is_animal_safe_v1(DTDD_API_KEY, m, imdb_id=...)` (with its guarded
`get_imdb_id` lookup) on movie `m`. -/
def annotUpdate (safe : Movie → Option Bool) (watched : Finset Int) (m : Movie) :
    Movie :=
  { m with is_watched := some (pyIdMem watched m),
           dtdd_dog_safe := some (statusStr (safe m)) }

/-- The loop over `movies[:MAX_DTDD_CHECK]`: annotate each movie and, when the
no-animal-harm flag is set, skip (`continue`) movies whose safety result is
`False`. -/
def checkedLoop (safe : Movie → Option Bool) (watched : Finset Int)
    (no_animal_harm : Bool) : List Movie → List Movie
  | [] => []
  | m :: rest =>
    let m' := annotUpdate safe watched m
    if no_animal_harm && (safe m == some false) then checkedLoop safe watched no_animal_harm rest
    else m' :: checkedLoop safe watched no_animal_harm rest

/-- The loop over `movies[MAX_DTDD_CHECK:]`: `setdefault` the safety status to
`"unknown"` and set `is_watched`; nothing is dropped. -/
def tailUpdate (watched : Finset Int) (m : Movie) : Movie :=
  { m with dtdd_dog_safe := some (m.dtdd_dog_safe.getD "unknown"),
           is_watched := some (pyIdMem watched m) }

/-- The whole annotation step of the search endpoint:
`checked + movies[MAX_DTDD_CHECK:]` after both loops. -/
def annotateStep (safe : Movie → Option Bool) (watched : Finset Int)
    (no_animal_harm : Bool) (movies : List Movie) : List Movie :=
  checkedLoop safe watched no_animal_harm (movies.take MAX_DTDD_CHECK)
    ++ (movies.drop MAX_DTDD_CHECK).map (tailUpdate watched)

/-- The loop body of the actor-exclusion step, with
`get_movie_cast_ids(TMDB_API_KEY, mid)` abstracted as the oracle `cast`
(`Except.error` standing for a raised lookup error, which the code catches
and treats as "keep").  Movies with a falsy `id` are skipped (`continue`)
before any lookup.  Second component: the ids passed to the cast lookup. -/
def excludeLoop (exclSet : Finset Int) (cast : PyVal → Except Unit (Finset Int)) :
    List Movie → List Movie × List PyVal
  | [] => ([], [])
  | m :: rest =>
    let r := excludeLoop exclSet cast rest
    if m.id.truthy then
      match cast m.id with
      | .error _ => (m :: r.1, m.id :: r.2)
      | .ok cast_ids =>
        (if cast_ids ∩ exclSet = ∅ then m :: r.1 else r.1, m.id :: r.2)
    else r

/-- The actor-exclusion step: a no-op when no excluded-actor ids resolved
(`if exclude_ids:`), otherwise the filtering loop against
`set(exclude_ids)`. -/
def excludeStep (exclude_ids : List Int) (cast : PyVal → Except Unit (Finset Int))
    (movies : List Movie) : List Movie × List PyVal :=
  if exclude_ids = [] then (movies, [])
  else excludeLoop exclude_ids.toFinset cast movies

/-- The keep-condition realized by one iteration of the exclusion loop:
truthy id, and the cast lookup either failed (fail-open) or is disjoint from
the excluded set. -/
def keepB (exclSet : Finset Int) (cast : PyVal → Except Unit (Finset Int))
    (m : Movie) : Bool :=
  m.id.truthy &&
    (match cast m.id with
     | .error _ => true
     | .ok cast_ids => decide (cast_ids ∩ exclSet = ∅))

/-- Number of entries of the watched store for a given (user id, movie id)
pair. -/
def pairCount (db : List WatchedRow) (u mid : Int) : Nat :=
  db.countP (fun e => e.user_id == u && e.tmdb_id == mid)

/-! ## Theorems -/

lemma mark_watched_of_exists {db : List WatchedRow} {t : Int} (title : String)
    (h : ∃ e ∈ db, e.user_id = 1 ∧ e.tmdb_id = t) :
    mark_watched db t title = db := by
  have : db.any (fun e => e.user_id == 1 && e.tmdb_id == t) = true := by
    rcases h with ⟨e, he, h1, h2⟩
    exact List.any_eq_true.mpr ⟨e, he, by simp [h1, h2]⟩
  simp [mark_watched, this]

lemma pairCount_append (db db' : List WatchedRow) (u mid : Int) :
    pairCount (db ++ db') u mid = pairCount db u mid + pairCount db' u mid := by
  simp [pairCount, List.countP_append]

/-- Claim C7: the watched store keeps at most one entry per
(user id, movie id) pair: a second mark of an already-marked movie leaves the
store unchanged, unmarking a never-marked movie is a no-op (and raises no
error: both operations are total), and both operations preserve the
at-most-one invariant for every pair. -/
theorem claim_C7_watched_store (db : List WatchedRow) (t : Int)
    (title title' : String) (u mid : Int) :
    ((∃ e ∈ db, e.user_id = 1 ∧ e.tmdb_id = t) → mark_watched db t title = db) ∧
    mark_watched (mark_watched db t title) t title' = mark_watched db t title ∧
    ((∀ e ∈ db, ¬(e.user_id = 1 ∧ e.tmdb_id = t)) → remove_watched db t = db) ∧
    (pairCount db u mid ≤ 1 →
      pairCount (mark_watched db t title) u mid ≤ 1 ∧
      pairCount (remove_watched db t) u mid ≤ 1) := by
  refine ⟨fun h => mark_watched_of_exists title h, ?_, ?_, ?_⟩
  · by_cases h : (db.any fun e => e.user_id == 1 && e.tmdb_id == t) = true
    · simp [mark_watched, h]
    · have hc : (db.any fun e => e.user_id == 1 && e.tmdb_id == t) = false := by
        revert h; cases db.any fun e => e.user_id == 1 && e.tmdb_id == t <;> simp
      have h2 : mark_watched db t title = db ++ [⟨1, t, title⟩] := by
        simp [mark_watched, hc]
      rw [h2]
      exact mark_watched_of_exists title' ⟨⟨1, t, title⟩, by simp, rfl, rfl⟩
  · intro h
    apply List.filter_eq_self.mpr
    intro e he
    have h2 := h e he
    simp only [not_and] at h2
    by_cases h1 : e.user_id = 1
    · simp [h1, h2 h1]
    · simp [h1]
  · intro hle
    constructor
    · by_cases h : (db.any fun e => e.user_id == 1 && e.tmdb_id == t) = true
      · simpa [mark_watched, h] using hle
      · have hc : (db.any fun e => e.user_id == 1 && e.tmdb_id == t) = false := by
          revert h; cases db.any fun e => e.user_id == 1 && e.tmdb_id == t <;> simp
        have h2 : mark_watched db t title = db ++ [⟨1, t, title⟩] := by
          simp [mark_watched, hc]
        rw [h2, pairCount_append]
        by_cases hu : u = 1 ∧ mid = t
        · have h0 : pairCount db u mid = 0 := by
            rw [pairCount, List.countP_eq_zero]
            intro e he hcc
            rw [hu.1, hu.2] at hcc
            exact h (List.any_eq_true.mpr ⟨e, he, hcc⟩)
          have h1 : pairCount [(⟨1, t, title⟩ : WatchedRow)] u mid = 1 := by
            rw [hu.1, hu.2]; simp [pairCount]
          omega
        · have h1 : pairCount [(⟨1, t, title⟩ : WatchedRow)] u mid = 0 := by
            rw [pairCount, List.countP_eq_zero]
            intro e he hcc
            simp only [List.mem_singleton] at he
            subst he
            simp only [Bool.and_eq_true, beq_iff_eq] at hcc
            exact hu ⟨hcc.1.symm, hcc.2.symm⟩
          omega
    · calc pairCount (remove_watched db t) u mid
          ≤ pairCount db u mid := by
            simp only [pairCount, remove_watched, List.countP_filter]
            refine List.countP_mono_left fun e he => ?_
            intro hb
            simp only [Bool.and_eq_true] at hb ⊢
            exact hb.1
        _ ≤ 1 := hle

/-- Witness for C7 at a concrete store. -/
theorem claim_C7_witness :
    mark_watched [⟨1, 5, "A"⟩] 5 "B" = [⟨1, 5, "A"⟩] ∧
    remove_watched [⟨1, 6, "A"⟩] 5 = [⟨1, 6, "A"⟩] ∧
    pairCount (mark_watched [] 5 "B") 1 5 ≤ 1 := by
  obtain ⟨h1, _, h3, h4⟩ := claim_C7_watched_store [⟨1, 5, "A"⟩] 5 "B" "C" 1 5
  obtain ⟨h1', _, h3', h4'⟩ := claim_C7_watched_store [⟨1, 6, "A"⟩] 5 "B" "C" 1 5
  obtain ⟨h1'', _, h3'', h4''⟩ := claim_C7_watched_store [] 5 "B" "C" 1 5
  exact ⟨h1 ⟨⟨1, 5, "A"⟩, by simp⟩, h3' (by simp), (h4'' (by simp [pairCount])).1⟩

lemma dtdd_search_no_key (o : DtddOracles) (q : String) :
    dtdd_search "" o q = .ok (none, []) := by
  simp [dtdd_search]

lemma dtdd_search_imdb_no_key (o : DtddOracles) (i : String) :
    dtdd_search_imdb "" o i = .ok (none, []) := by
  simp [dtdd_search_imdb]

/-- Claim C8: with an absent (empty) animal-safety API key, every safety
classification returns UNKNOWN (`none`), raises no error, and issues no
safety-API network call, for every movie, IMDb id, cache state and network
behaviour. -/
theorem claim_C8_no_key_unknown (o : DtddOracles) (m : Movie)
    (imdb_id : Option String) :
    is_animal_safe_v1 "" o m imdb_id = .ok (none, []) := by
  unfold is_animal_safe_v1
  by_cases ht : (m.title.getD "").trim = ""
  · simp [ht]
  · cases imdb_id with
    | none => simp [ht, dtdd_search_no_key]
    | some s =>
      by_cases hs : s = ""
      · simp [ht, hs, dtdd_search_no_key]
      · simp [ht, hs, dtdd_search_imdb_no_key]

lemma entryStatus_eq_safe_iff (e : TopicStat) :
    entryStatus e = .safe ↔ entryVerdict e = some false := by
  unfold entryStatus statusOfSafe
  cases h : entryVerdict e with
  | none => simp
  | some b => cases b <;> simp

lemma entryVerdict_no_flag (e : TopicStat) (hb : ∀ b2, e.isYes ≠ .vBool b2)
    (hk : ∀ k2, e.isYes ≠ .vInt k2) :
    entryVerdict e =
      (match e.yesSum.intInstance, e.noSum.intInstance with
       | some y2, some n2 =>
          if y2 = 0 && n2 = 0 then none else some (decide (n2 < y2))
       | _, _ => none) := by
  have hshape : e.isYes = .vNone ∨ ∃ s, e.isYes = .vStr s := by
    cases h : e.isYes with
    | vNone => exact Or.inl rfl
    | vInt n2 => exact absurd h (hk n2)
    | vBool b2 => exact absurd h (hb b2)
    | vStr s => exact Or.inr ⟨s, rfl⟩
  rcases hshape with h | ⟨s, h⟩ <;> unfold entryVerdict <;> rw [h]

lemma entryVerdict_votes (e : TopicStat) (hb : ∀ b2, e.isYes ≠ .vBool b2)
    (hk : ∀ k2, e.isYes ≠ .vInt k2) (y n : Int)
    (hy : e.yesSum = .vInt y) (hn : e.noSum = .vInt n) :
    entryVerdict e = if y = 0 ∧ n = 0 then none else some (decide (n < y)) := by
  have h1 : e.yesSum.intInstance = some y := by rw [hy]; rfl
  have h2 : e.noSum.intInstance = some n := by rw [hn]; rfl
  rw [entryVerdict_no_flag e hb hk, h1, h2]
  by_cases hc : y = 0 ∧ n = 0
  · obtain ⟨rfl, rfl⟩ := hc
    simp
  · simp [hc]

/-- Claim C3: within the matched dog-death topic entry, an explicit `isYes`
flag wins (boolean, or integer coerced with `bool`, so `isYes = 1` gives
UNSAFE); otherwise, with both vote totals present as integers, both-zero
gives UNKNOWN, strictly unequal totals give SAFE iff no-votes exceed
yes-votes, and a non-zero tie gives SAFE; totals that are not both integers
give UNKNOWN.  The single-entry scan of `dog_dies_from_media` reduces to
this entry verdict. -/
theorem claim_C3_entry_classifier (e : TopicStat) (b : Bool) (k y n : Int) :
    (isDogDiesTopic e = true →
      dog_dies_from_media (some { topicItemStats := [e] }) = entryVerdict e) ∧
    (e.isYes = .vBool b →
      entryStatus e = (if b then Status.unsafe_ else Status.safe)) ∧
    (e.isYes = .vInt k →
      entryStatus e = (if k = 0 then Status.safe else Status.unsafe_)) ∧
    ((∀ b2, e.isYes ≠ .vBool b2) → (∀ k2, e.isYes ≠ .vInt k2) →
      (e.yesSum = .vInt y → e.noSum = .vInt n →
        ((y = 0 ∧ n = 0 → entryStatus e = .unknown) ∧
         (y ≠ n → (entryStatus e = .safe ↔ n > y)) ∧
         (y = n → y ≠ 0 → entryStatus e = .safe))) ∧
      ((e.yesSum.intInstance = none ∨ e.noSum.intInstance = none) →
        entryStatus e = .unknown)) := by
  refine ⟨?_, ?_, ?_, ?_⟩
  · intro h
    simp [dog_dies_from_media, dogDiesScan, h]
  · intro h
    unfold entryStatus statusOfSafe entryVerdict
    rw [h]
    cases b <;> simp
  · intro h
    unfold entryStatus statusOfSafe entryVerdict
    rw [h]
    by_cases hk : k = 0
    · subst hk; simp
    · have hb2 : (k != 0) = true := by simp [hk]
      simp [hk, hb2]
  · intro hb hk
    constructor
    · intro hy hn
      have hv := entryVerdict_votes e hb hk y n hy hn
      refine ⟨?_, ?_, ?_⟩
      · rintro ⟨rfl, rfl⟩
        simp only [and_self, if_true] at hv
        simp [entryStatus, statusOfSafe, hv]
      · intro hne
        rw [entryStatus_eq_safe_iff, hv]
        have hc : ¬(y = 0 ∧ n = 0) := by omega
        rw [if_neg hc]
        simp only [Option.some.injEq, decide_eq_false_iff_not, not_lt]
        omega
      · intro heq hnz
        rw [entryStatus_eq_safe_iff, hv]
        have hc : ¬(y = 0 ∧ n = 0) := by omega
        rw [if_neg hc]
        simp only [Option.some.injEq, decide_eq_false_iff_not, not_lt]
        omega
    · intro hmiss
      have hv2 : entryVerdict e = none := by
        rw [entryVerdict_no_flag e hb hk]
        rcases hmiss with h | h
        · rw [h]
        · rw [h]
          cases e.yesSum.intInstance <;> rfl
      simp [entryStatus, statusOfSafe, hv2]

/-- Witness for C3: an integer `isYes = 1` classifies as UNSAFE, and a
9-yes / 4-no entry without a flag classifies as not-SAFE. -/
theorem claim_C3_witness :
    entryStatus { isYes := .vInt 1 } = Status.unsafe_ ∧
    (entryStatus { yesSum := .vInt 9, noSum := .vInt 4 } = Status.safe ↔
      (4 : Int) > 9) := by
  obtain ⟨_, _, h3, _⟩ :=
    claim_C3_entry_classifier { isYes := .vInt 1 } true 1 0 0
  obtain ⟨_, _, _, h4⟩ :=
    claim_C3_entry_classifier { yesSum := .vInt 9, noSum := .vInt 4 } true 1 9 4
  refine ⟨by simpa using h3 rfl, ?_⟩
  exact ((h4 (by intro b2 h; cases h) (by intro k2 h; cases h)).1 rfl rfl).2.1
    (by decide)

lemma excludeLoop_eq (exclSet : Finset Int)
    (cast : PyVal → Except Unit (Finset Int)) (movies : List Movie) :
    excludeLoop exclSet cast movies =
      (movies.filter (keepB exclSet cast),
       ((movies.filter fun m => m.id.truthy).map fun m => m.id)) := by
  induction movies with
  | nil => rfl
  | cons m rest ih =>
    unfold excludeLoop
    rw [ih]
    by_cases ht : m.id.truthy
    · cases hc : cast m.id with
      | error e => simp [ht, keepB, hc, List.filter_cons]
      | ok s =>
        by_cases hd : s ∩ exclSet = ∅ <;>
          simp [ht, keepB, hc, hd, List.filter_cons]
    · simp [ht, keepB, List.filter_cons]

/-- Claim C9: when at least one excluded-actor id resolved, every movie whose
`id` is missing/`None` or `0` is dropped by the exclusion step regardless of
the cast oracle, and no cast lookup is issued for any falsy id (every id
passed to the lookup is truthy). -/
theorem claim_C9_falsy_id_dropped (exclude_ids : List Int)
    (cast : PyVal → Except Unit (Finset Int)) (movies : List Movie)
    (hne : exclude_ids ≠ []) :
    (∀ m ∈ (excludeStep exclude_ids cast movies).1,
      ¬(m.id = PyVal.vNone ∨ m.id = PyVal.vInt 0)) ∧
    (∀ v ∈ (excludeStep exclude_ids cast movies).2, v.truthy = true) := by
  have hstep : excludeStep exclude_ids cast movies =
      excludeLoop exclude_ids.toFinset cast movies := by
    simp [excludeStep, hne]
  rw [hstep, excludeLoop_eq]
  constructor
  · intro m hm
    have ht : keepB exclude_ids.toFinset cast m = true := (List.mem_filter.mp hm).2
    have htr : m.id.truthy = true := by
      unfold keepB at ht
      exact ((Bool.and_eq_true _ _).mp ht).1
    rintro (h0 | h0) <;> rw [h0] at htr <;> simp [PyVal.truthy] at htr
  · intro v hv
    simp only [List.mem_map] at hv
    obtain ⟨m, hm, rfl⟩ := hv
    exact (List.mem_filter.mp hm).2

/-- Witness for C9: with one resolved excluded id, a movie without an id and
a movie with id 0 are dropped and trigger no lookup, even with a cast oracle
that never matches. -/
theorem claim_C9_witness :
    ¬({ id := PyVal.vNone : Movie } ∈
      (excludeStep [9] (fun _ => .ok ∅)
        [{ id := PyVal.vNone }, { id := PyVal.vInt 0 }]).1) ∧
    (excludeStep [9] (fun _ => .ok ∅)
      [{ id := PyVal.vNone }, { id := PyVal.vInt 0 }]).2 = [] := by
  obtain ⟨h1, h2⟩ := claim_C9_falsy_id_dropped [9] (fun _ => .ok ∅)
    [{ id := PyVal.vNone }, { id := PyVal.vInt 0 }] (by simp)
  exact ⟨fun hm => h1 _ hm (Or.inl rfl), by decide⟩

/-- Claim C5: when at least one excluded-actor id resolved, a movie with a
truthy integer id is kept despite a failing cast lookup (fail-open, the
failure never aborting the step), and with a successful lookup it survives
the step iff its cast id set does not intersect the excluded set. -/
theorem claim_C5_exclusion_filter (exclude_ids : List Int)
    (cast : PyVal → Except Unit (Finset Int)) (movies : List Movie)
    (m : Movie) (i : Int) (hne : exclude_ids ≠ []) (hm : m ∈ movies)
    (hid : m.id = PyVal.vInt i) (hi : i ≠ 0) :
    (∀ e, cast (PyVal.vInt i) = .error e →
      m ∈ (excludeStep exclude_ids cast movies).1) ∧
    (∀ s, cast (PyVal.vInt i) = .ok s →
      (m ∈ (excludeStep exclude_ids cast movies).1 ↔
        s ∩ exclude_ids.toFinset = ∅)) := by
  have hstep : excludeStep exclude_ids cast movies =
      excludeLoop exclude_ids.toFinset cast movies := by
    simp [excludeStep, hne]
  rw [hstep, excludeLoop_eq]
  have htr : m.id.truthy = true := by
    rw [hid]; simp [PyVal.truthy, hi]
  constructor
  · intro e hc
    refine List.mem_filter.mpr ⟨hm, ?_⟩
    unfold keepB
    rw [hid] at htr ⊢
    rw [hc, htr]
    rfl
  · intro s hc
    constructor
    · intro hmem
      have hk : keepB exclude_ids.toFinset cast m = true :=
        (List.mem_filter.mp hmem).2
      unfold keepB at hk
      rw [hid, hc] at hk
      simp only [PyVal.truthy, Bool.and_eq_true, bne_iff_ne, ne_eq,
        decide_eq_true_eq] at hk
      exact hk.2
    · intro hd
      refine List.mem_filter.mpr ⟨hm, ?_⟩
      unfold keepB
      rw [hid]
      simp [PyVal.truthy, hi, hc, hd]

/-- Witness for C5: a movie whose cast lookup fails is kept; one whose cast
contains the excluded actor is dropped. -/
theorem claim_C5_witness :
    ({ id := PyVal.vInt 3 : Movie } ∈
      (excludeStep [9] (fun _ => .error ()) [{ id := PyVal.vInt 3 }]).1) ∧
    ¬({ id := PyVal.vInt 3 : Movie } ∈
      (excludeStep [9] (fun _ => .ok {9}) [{ id := PyVal.vInt 3 }]).1) := by
  obtain ⟨h1, _⟩ := claim_C5_exclusion_filter [9] (fun _ => .error ())
    [{ id := PyVal.vInt 3 }] { id := PyVal.vInt 3 } 3 (by simp)
    (List.mem_singleton.mpr rfl) rfl (by decide)
  obtain ⟨_, h2⟩ := claim_C5_exclusion_filter [9] (fun _ => .ok {9})
    [{ id := PyVal.vInt 3 }] { id := PyVal.vInt 3 } 3 (by simp)
    (List.mem_singleton.mpr rfl) rfl (by decide)
  refine ⟨h1 () rfl, fun hmem => ?_⟩
  have := (h2 {9} rfl).mp hmem
  revert this
  decide

lemma statusStr_eq_unsafe_iff (v : Option Bool) :
    (statusStr v == some "unsafe") = true ↔ v = some false := by
  cases v with
  | none => simp [statusStr]
  | some b => cases b <;> simp [statusStr]

lemma checkedLoop_eq (safe : Movie → Option Bool) (watched : Finset Int)
    (nh : Bool) (l : List Movie) :
    checkedLoop safe watched nh l =
      (l.map (annotUpdate safe watched)).filter
        (fun m => !(nh && m.dtdd_dog_safe == some "unsafe")) := by
  induction l with
  | nil => rfl
  | cons m rest ih =>
    unfold checkedLoop
    rw [ih]
    have hst : (annotUpdate safe watched m).dtdd_dog_safe =
        some (statusStr (safe m)) := rfl
    by_cases hdrop : (nh && (safe m == some false)) = true
    · obtain ⟨hnh, hsf⟩ := Bool.and_eq_true _ _ |>.mp hdrop
      have hsf2 : safe m = some false := by simpa using hsf
      rw [hdrop]
      simp only [List.map_cons, List.filter_cons, hst, hsf2]
      simp [statusStr, hnh]
    · have hkeep :
          (!(nh && (annotUpdate safe watched m).dtdd_dog_safe == some "unsafe"))
            = true := by
        rw [hst]
        cases hnh : nh with
        | false => simp
        | true =>
          simp only [hnh, Bool.true_and] at hdrop ⊢
          simp only [Bool.not_eq_true'] at *
          cases hv : (statusStr (safe m) == some "unsafe") with
          | false => rfl
          | true =>
            exact absurd (by simpa using (statusStr_eq_unsafe_iff (safe m)).mp hv)
              (by simpa using hdrop)
      rw [Bool.not_eq_true] at hdrop
      rw [hdrop]
      simp only [List.map_cons, List.filter_cons, hkeep]
      simp

/-- Claim C2: the annotation step checks only the first `MAX_DTDD_CHECK = 25`
movies.  On a pre-annotation list whose movies carry no safety status yet,
the output is (annotated first-25, filtered by the no-animal-harm flag
against exactly the annotated-"unsafe" movies) followed by the untouched
tail, whose movies all end with status "unknown", are never dropped
(full length preserved), and keep their order; within the checked part a
movie is annotated "unsafe" iff its safety evaluation returned `False`. -/
theorem claim_C2_annotation_bound (safe : Movie → Option Bool)
    (watched : Finset Int) (nh : Bool) (movies : List Movie)
    (h : ∀ m ∈ movies, m.dtdd_dog_safe = none) :
    annotateStep safe watched nh movies
      = ((movies.take MAX_DTDD_CHECK).map (annotUpdate safe watched)).filter
          (fun m => !(nh && m.dtdd_dog_safe == some "unsafe"))
        ++ (movies.drop MAX_DTDD_CHECK).map (tailUpdate watched) ∧
    (∀ m ∈ (movies.drop MAX_DTDD_CHECK).map (tailUpdate watched),
       m.dtdd_dog_safe = some "unknown") ∧
    ((movies.drop MAX_DTDD_CHECK).map (tailUpdate watched)).length
       = movies.length - MAX_DTDD_CHECK ∧
    (∀ m, ((annotUpdate safe watched m).dtdd_dog_safe = some "unsafe" ↔
       safe m = some false)) := by
  refine ⟨?_, ?_, ?_, ?_⟩
  · unfold annotateStep
    rw [checkedLoop_eq]
  · intro m hm
    simp only [List.mem_map] at hm
    obtain ⟨m0, hm0, rfl⟩ := hm
    have h0 : m0.dtdd_dog_safe = none := h m0 (List.mem_of_mem_drop hm0)
    simp [tailUpdate, h0]
  · simp
  · intro m
    have hst : (annotUpdate safe watched m).dtdd_dog_safe =
        some (statusStr (safe m)) := rfl
    rw [hst]
    cases hv : safe m with
    | none => simp [statusStr]
    | some b => cases b <;> simp [statusStr]

/-- Witness for C2 on a two-movie list with the check bound exercised via a
drop: the unsafe-annotated movie is dropped, the safe one is kept. -/
theorem claim_C2_witness :
    annotateStep (fun m => if m.id = PyVal.vInt 1 then some false else some true)
      ∅ true [{ id := PyVal.vInt 1 }, { id := PyVal.vInt 2 }]
      = [{ id := PyVal.vInt 2, dtdd_dog_safe := some "safe",
           is_watched := some false }] := by
  have h := (claim_C2_annotation_bound
    (fun m => if m.id = PyVal.vInt 1 then some false else some true) ∅ true
    [{ id := PyVal.vInt 1 }, { id := PyVal.vInt 2 }] (by decide)).1
  rw [h]
  decide

lemma addPage_cons (seen : Finset Int) (acc : List Movie) (m : Movie)
    (rest : List Movie) :
    addPage seen acc (m :: rest)
      = match m.id.intInstance with
        | none => addPage seen acc rest
        | some mid =>
          if mid ∈ seen then addPage seen acc rest
          else addPage (insert mid seen) (acc ++ [m]) rest := rfl

lemma dedupeFirst_cons (seen : Finset Int) (m : Movie) (rest : List Movie) :
    dedupeFirst seen (m :: rest)
      = match m.id.intInstance with
        | none => dedupeFirst seen rest
        | some mid =>
          if mid ∈ seen then dedupeFirst seen rest
          else m :: dedupeFirst (insert mid seen) rest := rfl

lemma seenAfter_cons (seen : Finset Int) (m : Movie) (rest : List Movie) :
    seenAfter seen (m :: rest)
      = match m.id.intInstance with
        | none => seenAfter seen rest
        | some mid => seenAfter (insert mid seen) rest := rfl

lemma addPage_eq (l : List Movie) : ∀ (seen : Finset Int) (acc : List Movie),
    addPage seen acc l = (seenAfter seen l, acc ++ dedupeFirst seen l) := by
  induction l with
  | nil => intro seen acc; simp [addPage, seenAfter, dedupeFirst]
  | cons m rest ih =>
    intro seen acc
    rw [addPage_cons, dedupeFirst_cons, seenAfter_cons]
    cases h : m.id.intInstance with
    | none => exact ih seen acc
    | some mid =>
      by_cases hs : mid ∈ seen
      · simp only [hs, if_true]
        have hins : insert mid seen = seen := Finset.insert_eq_self.mpr hs
        rw [hins]
        exact ih seen acc
      · simp only [hs, if_false]
        rw [ih (insert mid seen) (acc ++ [m])]
        simp

lemma dedupeFirst_append (l1 l2 : List Movie) : ∀ seen : Finset Int,
    dedupeFirst seen (l1 ++ l2)
      = dedupeFirst seen l1 ++ dedupeFirst (seenAfter seen l1) l2 := by
  induction l1 with
  | nil => intro seen; simp [dedupeFirst, seenAfter]
  | cons m rest ih =>
    intro seen
    rw [List.cons_append, dedupeFirst_cons, dedupeFirst_cons, seenAfter_cons]
    cases h : m.id.intInstance with
    | none => exact ih seen
    | some mid =>
      by_cases hs : mid ∈ seen
      · simp only [hs, if_true]
        rw [Finset.insert_eq_self.mpr hs]
        exact ih seen
      · simp only [hs, if_false, List.cons_append, List.cons.injEq, true_and]
        exact ih (insert mid seen)

lemma dedupeFirst_sublist (l : List Movie) : ∀ seen : Finset Int,
    List.Sublist (dedupeFirst seen l) l := by
  induction l with
  | nil => intro seen; simp [dedupeFirst]
  | cons m rest ih =>
    intro seen
    rw [dedupeFirst_cons]
    cases h : m.id.intInstance with
    | none => exact (ih seen).cons m
    | some mid =>
      by_cases hs : mid ∈ seen
      · simp only [hs, if_true]
        exact (ih seen).cons m
      · simp only [hs, if_false]
        exact (ih (insert mid seen)).cons₂ m

lemma dedupeFirst_mem_isSome (l : List Movie) : ∀ (seen : Finset Int)
    (m : Movie), m ∈ dedupeFirst seen l → (m.id.intInstance).isSome = true := by
  induction l with
  | nil => intro seen m hm; simp [dedupeFirst] at hm
  | cons m0 rest ih =>
    intro seen m hm
    rw [dedupeFirst_cons] at hm
    cases h : m0.id.intInstance with
    | none =>
      rw [h] at hm
      exact ih seen m hm
    | some mid =>
      rw [h] at hm
      by_cases hs : mid ∈ seen
      · simp only [hs, if_true] at hm
        exact ih seen m hm
      · simp only [hs, if_false, List.mem_cons] at hm
        rcases hm with rfl | hm
        · simp [h]
        · exact ih (insert mid seen) m hm

lemma dedupeFirst_ids_nodup (l : List Movie) : ∀ seen : Finset Int,
    ((dedupeFirst seen l).filterMap fun m => m.id.intInstance).Nodup ∧
    (∀ i ∈ (dedupeFirst seen l).filterMap fun m => m.id.intInstance,
      i ∉ seen) := by
  induction l with
  | nil => intro seen; simp [dedupeFirst]
  | cons m rest ih =>
    intro seen
    rw [dedupeFirst_cons]
    cases h : m.id.intInstance with
    | none => exact ih seen
    | some mid =>
      by_cases hs : mid ∈ seen
      · simp only [hs, if_true]
        exact ih seen
      · simp only [hs, if_false, List.filterMap_cons, h]
        obtain ⟨ihn, ihs⟩ := ih (insert mid seen)
        refine ⟨List.Nodup.cons ?_ ihn, ?_⟩
        · intro hmem
          exact (ihs mid hmem) (Finset.mem_insert_self mid seen)
        · intro i hi
          simp only [List.mem_cons] at hi
          rcases hi with rfl | hi
          · exact hs
          · intro hins
            exact (ihs i hi) (Finset.mem_insert_of_mem hins)

lemma discoverGo_zero (fetch : Nat → List Movie) (page : Nat)
    (seen : Finset Int) (acc : List Movie) :
    discoverGo fetch page 0 seen acc = (acc, []) := rfl

lemma discoverGo_succ (fetch : Nat → List Movie) (page fuel : Nat)
    (seen : Finset Int) (acc : List Movie) :
    discoverGo fetch page (fuel + 1) seen acc
      = if (fetch page).isEmpty then (acc, [page])
        else ((discoverGo fetch (page + 1) fuel
                 (addPage seen acc (fetch page)).1
                 (addPage seen acc (fetch page)).2).1,
              page :: (discoverGo fetch (page + 1) fuel
                 (addPage seen acc (fetch page)).1
                 (addPage seen acc (fetch page)).2).2) := rfl

lemma discoverGo_spec (fetch : Nat → List Movie) : ∀ (fuel page : Nat)
    (seen : Finset Int) (acc : List Movie),
    ∃ k, k ≤ fuel ∧ (1 ≤ fuel → 1 ≤ k) ∧
      (discoverGo fetch page fuel seen acc).2 = List.range' page k ∧
      (discoverGo fetch page fuel seen acc).1
        = acc ++ dedupeFirst seen (((List.range' page k).map fetch).flatten) ∧
      (∀ j, j + 1 < k → fetch (page + j) ≠ []) ∧
      (k < fuel → fetch (page + (k - 1)) = []) := by
  intro fuel
  induction fuel with
  | zero =>
    intro page seen acc
    refine ⟨0, le_refl 0, by omega, ?_, ?_, by omega, by omega⟩
    · rw [discoverGo_zero]
      simp
    · rw [discoverGo_zero]
      simp [dedupeFirst]
  | succ fuel ih =>
    intro page seen acc
    by_cases hres : (fetch page).isEmpty
    · have hnil : fetch page = [] := List.isEmpty_iff.mp hres
      have hgo : discoverGo fetch page (fuel + 1) seen acc = (acc, [page]) := by
        rw [discoverGo_succ, if_pos hres]
      refine ⟨1, by omega, fun _ => le_refl 1, ?_, ?_, by omega, fun _ => ?_⟩
      · rw [hgo]
        rfl
      · rw [hgo]
        simp [hnil, dedupeFirst]
      · simpa using hnil
    · have hgo : discoverGo fetch page (fuel + 1) seen acc =
          ((discoverGo fetch (page + 1) fuel
              (seenAfter seen (fetch page))
              (acc ++ dedupeFirst seen (fetch page))).1,
           page :: (discoverGo fetch (page + 1) fuel
              (seenAfter seen (fetch page))
              (acc ++ dedupeFirst seen (fetch page))).2) := by
        rw [discoverGo_succ, if_neg hres, addPage_eq]
      obtain ⟨k', hk1, hk2, htr, hout, hcond, hlast⟩ :=
        ih (page + 1) (seenAfter seen (fetch page)) (acc ++ dedupeFirst seen (fetch page))
      refine ⟨k' + 1, by omega, fun _ => by omega, ?_, ?_, ?_, ?_⟩
      · rw [hgo]
        simp only [htr]
        rfl
      · rw [hgo]
        simp only [hout]
        have hstream : ((List.range' page (k' + 1)).map fetch).flatten
            = fetch page ++ ((List.range' (page + 1) k').map fetch).flatten := by
          rfl
        rw [hstream, dedupeFirst_append]
        simp
      · intro j hj
        cases j with
        | zero =>
          simpa using fun hn => hres (by simp [hn])
        | succ j2 =>
          have := hcond j2 (by omega)
          simpa [Nat.add_assoc, Nat.add_comm, Nat.add_left_comm] using this
      · intro hlt
        have hfuel1 : 1 ≤ fuel := by omega
        have hk1' : 1 ≤ k' := hk2 hfuel1
        have := hlast (by omega)
        have harith : page + 1 + (k' - 1) = page + (k' + 1 - 1) := by omega
        rwa [harith] at this

lemma clampPages_bounds (pages : Int) :
    1 ≤ clampPages pages ∧ clampPages pages ≤ 20 := by
  unfold clampPages
  rcases le_total pages 20 with h | h
  · rw [min_eq_left h]
    rcases le_total 1 pages with h2 | h2
    · rw [max_eq_right h2]
      omega
    · rw [max_eq_left h2]
      omega
  · rw [min_eq_right h, max_eq_right (by norm_num : (1 : Int) ≤ 20)]
    omega

/-- Claim C4: `discover_movies_multi` clamps the page count into `[1, 20]`
regardless of the caller's value, fetches pages `1..k` in increasing order,
stops early exactly on an empty page (all fetched pages but the last are
non-empty, and an early stop means the last fetched page was empty), and
returns the first-seen de-duplication of the fetched stream: the output is
the order-preserving sublist of the stream keeping the first record of each
integer catalog id, with no duplicate ids. -/
theorem claim_C4_discover_multi (fetch : Nat → List Movie) (pages : Int) :
    (1 ≤ clampPages pages ∧ clampPages pages ≤ 20) ∧
    ∃ k, 1 ≤ k ∧ k ≤ clampPages pages ∧
      (discover_movies_multi fetch pages).2 = List.range' 1 k ∧
      (∀ j, j + 1 < k → fetch (1 + j) ≠ []) ∧
      (k < clampPages pages → fetch k = []) ∧
      (discover_movies_multi fetch pages).1
        = dedupeFirst ∅ (((List.range' 1 k).map fetch).flatten) ∧
      ((discover_movies_multi fetch pages).1.filterMap
        fun m => m.id.intInstance).Nodup ∧
      List.Sublist (discover_movies_multi fetch pages).1
        (((List.range' 1 k).map fetch).flatten) := by
  obtain ⟨hlo, hhi⟩ := clampPages_bounds pages
  obtain ⟨k, hk1, hk2, htr, hout, hcond, hlast⟩ :=
    discoverGo_spec fetch (clampPages pages) 1 ∅ []
  have hout2 : (discover_movies_multi fetch pages).1
      = dedupeFirst ∅ (((List.range' 1 k).map fetch).flatten) := by
    rw [discover_movies_multi, hout]
    simp
  refine ⟨⟨hlo, hhi⟩, k, hk2 hlo, hk1, htr, hcond, ?_, hout2, ?_, ?_⟩
  · intro hlt
    have := hlast hlt
    have hk1' : 1 ≤ k := hk2 hlo
    have harith : 1 + (k - 1) = k := by omega
    rwa [harith] at this
  · rw [hout2]
    exact (dedupeFirst_ids_nodup _ ∅).1
  · rw [hout2]
    exact dedupeFirst_sublist _ ∅

/-- Witness for C4: a caller asking for 25 pages is clamped into `[1, 20]`,
and an always-empty fetch yields an empty result list. -/
theorem claim_C4_witness :
    (1 ≤ clampPages 25 ∧ clampPages 25 ≤ 20) ∧
    (discover_movies_multi (fun _ => ([] : List Movie)) 25).1 = [] := by
  obtain ⟨hb, k, hk1, hk2, htr, hcond, hlast, hout, hnd, hsub⟩ :=
    claim_C4_discover_multi (fun _ => ([] : List Movie)) 25
  refine ⟨hb, ?_⟩
  rw [hout]
  have hstream :
      ((List.range' 1 k).map fun _ => ([] : List Movie)).flatten = [] := by
    simp
  rw [hstream]
  rfl

/-- Claim C10: every record returned by `discover_movies_multi` has an
integer (in the Python sense: `isinstance(_, int)`) catalog id — items
without one are silently skipped. -/
theorem claim_C10_int_ids (fetch : Nat → List Movie) (pages : Int) (m : Movie)
    (hm : m ∈ (discover_movies_multi fetch pages).1) :
    (m.id.intInstance).isSome = true := by
  obtain ⟨k, _, _, _, hout, _, _⟩ :=
    discoverGo_spec fetch (clampPages pages) 1 ∅ []
  rw [discover_movies_multi, hout] at hm
  simp only [List.nil_append] at hm
  exact dedupeFirst_mem_isSome _ ∅ m hm

/-- Witness for C10 at a one-page fetch. -/
theorem claim_C10_witness :
    ((PyVal.vInt 7).intInstance).isSome = true := by
  exact claim_C10_int_ids (fun _ => [{ id := PyVal.vInt 7 }]) 1
    { id := PyVal.vInt 7 } (by decide)

lemma runLadder_cons (disc : Attempt → List Movie) (watched : Finset Int)
    (a : Attempt) (rest : List Attempt) :
    runLadder disc watched (a :: rest)
      = if MIN_RESULTS_TARGET ≤
            ((disc a).filter fun m => !pyIdMem watched m).length
        then (((disc a).filter fun m => !pyIdMem watched m), a.note, [a])
        else if rest.isEmpty
        then (((disc a).filter fun m => !pyIdMem watched m), a.note, [a])
        else ((runLadder disc watched rest).1,
              (runLadder disc watched rest).2.1,
              a :: (runLadder disc watched rest).2.2) := rfl

lemma runLadder_spec (disc : Attempt → List Movie) (watched : Finset Int) :
    ∀ (rest : List Attempt) (a : Attempt),
    ∃ k, 1 ≤ k ∧ k ≤ (a :: rest).length ∧
      (runLadder disc watched (a :: rest)).2.2 = (a :: rest).take k ∧
      (∀ b ∈ ((a :: rest).take k).dropLast,
        ladderCount disc watched b < MIN_RESULTS_TARGET) ∧
      (∃ la, ((a :: rest).take k).getLast? = some la ∧
        (runLadder disc watched (a :: rest)).2.1 = la.note ∧
        (runLadder disc watched (a :: rest)).1
          = (disc la).filter (fun m => !pyIdMem watched m) ∧
        (k < (a :: rest).length →
          MIN_RESULTS_TARGET ≤ ladderCount disc watched la)) ∧
      ((∀ b ∈ a :: rest, ladderCount disc watched b < MIN_RESULTS_TARGET) →
        (runLadder disc watched (a :: rest)).2.2 = a :: rest) := by
  intro rest
  induction rest with
  | nil =>
    intro a
    have hr : runLadder disc watched [a]
        = (((disc a).filter fun m => !pyIdMem watched m), a.note, [a]) := by
      rw [runLadder_cons]
      by_cases h : MIN_RESULTS_TARGET ≤
          ((disc a).filter fun m => !pyIdMem watched m).length <;> simp [h]
    exact ⟨1, le_refl 1, by simp, by simp [hr], by simp,
      ⟨a, by simp, by simp [hr], by simp [hr], by simp⟩, fun _ => by simp [hr]⟩
  | cons b rest2 ih =>
    intro a
    by_cases h : MIN_RESULTS_TARGET ≤
        ((disc a).filter fun m => !pyIdMem watched m).length
    · have hr : runLadder disc watched (a :: b :: rest2)
          = (((disc a).filter fun m => !pyIdMem watched m), a.note, [a]) := by
        rw [runLadder_cons, if_pos h]
      refine ⟨1, le_refl 1, by simp, by simp [hr], by simp,
        ⟨a, by simp, by simp [hr], by simp [hr], fun _ => h⟩, fun hall => ?_⟩
      exact absurd h (Nat.not_le.mpr (hall a (List.mem_cons_self a _)))
    · have hr : runLadder disc watched (a :: b :: rest2)
          = ((runLadder disc watched (b :: rest2)).1,
             (runLadder disc watched (b :: rest2)).2.1,
             a :: (runLadder disc watched (b :: rest2)).2.2) := by
        rw [runLadder_cons, if_neg h]
        simp
      obtain ⟨k, hk1, hk2, htr, hdrop, ⟨la, hla, hnote, hmov, hsucc⟩, hall⟩ :=
        ih b
      obtain ⟨k2, rfl⟩ : ∃ k2, k = k2 + 1 := ⟨k - 1, by omega⟩
      have htake : (a :: b :: rest2).take (k2 + 1 + 1)
          = a :: b :: rest2.take k2 := by simp
      have htake2 : (b :: rest2).take (k2 + 1) = b :: rest2.take k2 := by simp
      refine ⟨k2 + 1 + 1, by omega, by simp at hk2 ⊢; omega, ?_, ?_, ?_, ?_⟩
      · rw [hr, htake]
        simp only [htr, htake2]
      · rw [htake]
        intro b2 hb2
        have hdl : (a :: b :: rest2.take k2).dropLast
            = a :: (b :: rest2.take k2).dropLast := rfl
        rw [hdl] at hb2
        rcases List.mem_cons.mp hb2 with rfl | hb2
        · exact Nat.not_le.mp h
        · exact hdrop b2 (by rwa [htake2])
      · refine ⟨la, ?_, ?_, ?_, ?_⟩
        · rw [htake]
          rw [htake2] at hla
          rw [List.getLast?_cons_cons]
          exact hla
        · rw [hr]; exact hnote
        · rw [hr]; exact hmov
        · intro hlt
          exact hsucc (by simp at hlt ⊢; omega)
      · intro hallc
        rw [hr, hall fun b2 hb2 => hallc b2 (List.mem_cons_of_mem a hb2)]

/-- Claim C1: the fallback ladder executes a prefix of the configured
attempts in order; every executed attempt except the last missed the
20-result target, an early stop means the last executed attempt reached it,
all attempts run when none reaches it, the note and result list are those of
the last executed attempt, and when the very first (strictest) attempt
already meets the target the returned note is `none`. -/
theorem claim_C1_fallback_ladder (disc : Attempt → List Movie)
    (watched : Finset Int) (min_vote : Option ℚ) :
    (∃ k, 1 ≤ k ∧ k ≤ (buildAttempts min_vote).length ∧
      (runLadder disc watched (buildAttempts min_vote)).2.2
        = (buildAttempts min_vote).take k ∧
      (∀ b ∈ ((buildAttempts min_vote).take k).dropLast,
        ladderCount disc watched b < MIN_RESULTS_TARGET) ∧
      (∃ la, ((buildAttempts min_vote).take k).getLast? = some la ∧
        (runLadder disc watched (buildAttempts min_vote)).2.1 = la.note ∧
        (runLadder disc watched (buildAttempts min_vote)).1
          = (disc la).filter (fun m => !pyIdMem watched m) ∧
        (k < (buildAttempts min_vote).length →
          MIN_RESULTS_TARGET ≤ ladderCount disc watched la))) ∧
    ((∀ b ∈ buildAttempts min_vote,
        ladderCount disc watched b < MIN_RESULTS_TARGET) →
      (runLadder disc watched (buildAttempts min_vote)).2.2
        = buildAttempts min_vote) ∧
    (MIN_RESULTS_TARGET ≤ ladderCount disc watched ⟨min_vote, 200, none⟩ →
      (runLadder disc watched (buildAttempts min_vote)).2.2
        = [⟨min_vote, 200, none⟩] ∧
      (runLadder disc watched (buildAttempts min_vote)).2.1 = none) := by
  have hcons : buildAttempts min_vote
      = (⟨min_vote, 200, none⟩ : Attempt) :: (buildAttempts min_vote).tail := rfl
  obtain ⟨k, hk1, hk2, htr, hdrop, hlast, hall⟩ :=
    runLadder_spec disc watched ((buildAttempts min_vote).tail)
      ⟨min_vote, 200, none⟩
  rw [← hcons] at hk2 htr hdrop hlast hall
  refine ⟨⟨k, hk1, hk2, htr, hdrop, hlast⟩, hall, fun hfirst => ?_⟩
  have hfirst2 : MIN_RESULTS_TARGET ≤
      ((disc ⟨min_vote, 200, none⟩).filter fun m => !pyIdMem watched m).length :=
    hfirst
  have hr : runLadder disc watched (buildAttempts min_vote)
      = (((disc ⟨min_vote, 200, none⟩).filter fun m => !pyIdMem watched m),
         (none : Option String), [⟨min_vote, 200, none⟩]) := by
    rw [hcons, runLadder_cons, if_pos hfirst2]
  rw [hr]
  exact ⟨rfl, rfl⟩

/-- Witness for C1: a discovery oracle returning 20 results makes the first
attempt succeed, so the ladder's note is absent. -/
theorem claim_C1_witness :
    (runLadder (fun _ => List.replicate 20 { id := PyVal.vInt 7 }) ∅
      (buildAttempts none)).2.1 = none := by
  obtain ⟨_, _, hfirst⟩ := claim_C1_fallback_ladder
    (fun _ => List.replicate 20 { id := PyVal.vInt 7 }) ∅ none
  exact (hfirst (by decide)).2

lemma filter_orderedInsert_score (f : Movie → ℚ) (c : ℚ) (a : Movie) :
    ∀ l : List Movie,
    (List.orderedInsert (fun x y => f y ≤ f x) a l).filter
        (fun x => decide (f x = c))
      = if f a = c
        then a :: l.filter (fun x => decide (f x = c))
        else l.filter (fun x => decide (f x = c)) := by
  intro l
  induction l with
  | nil =>
    by_cases h : f a = c <;> simp [List.orderedInsert, h]
  | cons b t ih =>
    by_cases hab : f b ≤ f a
    · have hoi : List.orderedInsert (fun x y => f y ≤ f x) a (b :: t)
          = a :: b :: t := by
        simp [List.orderedInsert, hab]
      rw [hoi]
      by_cases h : f a = c <;> by_cases h2 : f b = c <;>
        simp [h, h2, List.filter_cons]
    · have hoi : List.orderedInsert (fun x y => f y ≤ f x) a (b :: t)
          = b :: List.orderedInsert (fun x y => f y ≤ f x) a t := by
        simp [List.orderedInsert, hab]
      rw [hoi, List.filter_cons]
      by_cases h2 : f b = c
      · have hac : ¬ f a = c := fun hc => hab (le_of_eq (by rw [h2, hc]))
        simp [h2, ih, hac, List.filter_cons]
      · by_cases h : f a = c <;> simp [h, h2, ih, List.filter_cons]

lemma filter_insertionSort_score (f : Movie → ℚ) (c : ℚ) :
    ∀ l : List Movie,
    (List.insertionSort (fun x y => f y ≤ f x) l).filter
        (fun x => decide (f x = c))
      = l.filter (fun x => decide (f x = c)) := by
  intro l
  induction l with
  | nil => rfl
  | cons m t ih =>
    have hs : List.insertionSort (fun x y => f y ≤ f x) (m :: t)
        = List.orderedInsert (fun x y => f y ≤ f x) m
            (List.insertionSort (fun x y => f y ≤ f x) t) := rfl
    rw [hs, filter_orderedInsert_score, ih]
    by_cases h : f m = c <;> simp [h, List.filter_cons]

/-- Claim C6: `rank_movies` (for any `log10` realization and current year)
returns a permutation of its input, sorted in descending order of the
composite score, and stably: for every score value the movies carrying that
score appear in their input order.  The score treats missing
rating / rating-count / popularity as 0, and the recency boost is 0 when the
release date is missing or its 4-character prefix is unparseable (for any
non-degenerate current year). -/
theorem claim_C6_ranking (log10 : ℚ → ℚ) (cy : Int) (l : List Movie) (c : ℚ)
    (m : Movie) (rd : String) :
    List.Perm (rank_movies log10 cy l) l ∧
    List.Pairwise (fun a b => scoreOf log10 cy b ≤ scoreOf log10 cy a)
      (rank_movies log10 cy l) ∧
    (rank_movies log10 cy l).filter (fun x => decide (scoreOf log10 cy x = c))
      = l.filter (fun x => decide (scoreOf log10 cy x = c)) ∧
    scoreOf log10 cy
        { m with vote_average := none, vote_count := none, popularity := none }
      = scoreOf log10 cy
        { m with vote_average := some 0, vote_count := some 0,
                 popularity := some 0 } ∧
    movieYear { m with release_date := none } = 0 ∧
    ((rd.take 4).toInt? = none →
      movieYear { m with release_date := some rd } = 0) ∧
    (15 ≤ cy → movieYear m = 0 → recencyBoost cy m = 0) := by
  refine ⟨?_, ?_, ?_, ?_, rfl, ?_, ?_⟩
  · exact List.perm_insertionSort _ l
  · haveI hto : IsTotal Movie
        (fun a b => scoreOf log10 cy b ≤ scoreOf log10 cy a) :=
      ⟨fun a b => le_total _ _⟩
    haveI htr : IsTrans Movie
        (fun a b => scoreOf log10 cy b ≤ scoreOf log10 cy a) :=
      ⟨fun a b d hab hbd => le_trans hbd hab⟩
    exact List.sorted_insertionSort _ l
  · exact filter_insertionSort_score (scoreOf log10 cy) c l
  · simp [scoreOf, floatOrZero, recencyBoost, movieYear]
  · intro h
    by_cases hrd : rd = "" <;> simp [movieYear, hrd, h]
  · intro hcy hy
    unfold recencyBoost
    rw [hy]
    have h15 : (15 : ℚ) ≤ (cy : ℚ) := by exact_mod_cast hcy
    have hle : ((0 : Int) : ℚ) - ((cy : ℚ) - 15) ≤ 0 := by
      push_cast
      linarith
    rw [max_eq_left hle]
    simp

/-- Witness for C6 on a concrete two-movie list (equal scores keep input
order; recency boost of a date-less movie is 0 in 2025). -/
theorem claim_C6_witness :
    List.Perm (rank_movies id 2025 [{ id := PyVal.vInt 1 }])
      [{ id := PyVal.vInt 1 }] ∧
    recencyBoost 2025 { release_date := none } = 0 := by
  obtain ⟨h1, _, _, _, _, _, h7⟩ := claim_C6_ranking id 2025
    [{ id := PyVal.vInt 1 }] 0 { release_date := none } ""
  exact ⟨h1, h7 (by norm_num) rfl⟩

end MovieRec
